import Mathlib

/-!
Verification of the VidLecta transcription-pipeline backend.

The definitions below are a shallow embedding of the Python sources:
  * `backend/app/database.py`   — the `Video` and `Transcription` records;
  * `backend/app/tasks.py`      — the `transcribe_video` Celery task (its retry
    driver with `max_retries = 3`, `default_retry_delay = 60`), duration
    derivation from recognition segments, and the `generate_summary` task;
  * `backend/app/videos/router.py` — `get_minutes_limit` and the quota
    admission check of the upload endpoints;
  * `backend/app/transcriptions/router.py` — the guarded transcript-creation
    endpoint;
  * `backend/app/services/cleanup_service.py` — `cleanup_expired_videos`;
  * `backend/app/config.py`     — the relevant `Settings` defaults.

Timestamps are modelled as integers (an abstract clock), Python strings as
`List Char` (so that the text operations of the summarizer stay kernel
computable; short identifier-like fields stay `String`), nullable columns as
`Option`, and floating-point segment times as rationals with Python's
`int()` truncation made explicit.
-/

/-- A `videos` row (database.py, class `Video`).  Only the columns the
pipeline, the routers and the cleanup sweep read or write are kept. -/
structure Video where
  id : Nat
  user_id : Nat
  original_filename : String
  storage_path : String
  file_size : Int
  duration_seconds : Option Int
  status : String
  error_message : Option String
  created_at : Int
  processed_at : Option Int
  deriving Repr, DecidableEq

/-- A `transcriptions` row (database.py, class `Transcription`), restricted to
the columns the claims mention.  `text` holds the full transcript. -/
structure Transcription where
  id : Nat
  video_id : Nat
  language : String
  text : List Char
  deriving Repr, DecidableEq

/-- The durable store: the `videos` and `transcriptions` tables. -/
structure DB where
  videos : List Video
  transcriptions : List Transcription
  deriving Repr, DecidableEq

/-- `SELECT * FROM videos WHERE id = vid` (first match). -/
def DB.getVideo (db : DB) (vid : Nat) : Option Video :=
  db.videos.find? (fun v => v.id = vid)

/-- `UPDATE videos SET ... WHERE videos.id = vid` — the sqlalchemy
`update(Video).where(Video.id == video_id).values(...)` statement, with the
assignment expressed as a function on the row. -/
def DB.updateVideo (db : DB) (vid : Nat) (f : Video → Video) : DB :=
  { db with videos := db.videos.map (fun v => if v.id = vid then f v else v) }

/-- Number of `transcriptions` rows for one `(video_id, language)` pair. -/
def DB.transcriptCount (db : DB) (vid : Nat) (lang : String) : Nat :=
  (db.transcriptions.filter
    (fun t => decide (t.video_id = vid) && decide (t.language = lang))).length

/-! ## Cleanup sweep (services/cleanup_service.py) -/

/-- The two `Settings` fields `cleanup_expired_videos` reads
(config.py lines 62–64). -/
structure CleanupSettings where
  STORAGE_RETENTION_DAYS : Int
  ENABLE_CLEANUP_JOB : Bool
  deriving Repr, DecidableEq

/-- The defaults from config.py: `STORAGE_RETENTION_DAYS: int = 7`,
`ENABLE_CLEANUP_JOB: bool = True`. -/
def defaultCleanupSettings : CleanupSettings :=
  { STORAGE_RETENTION_DAYS := 7, ENABLE_CLEANUP_JOB := true }

/-- The eligibility filter of the sweep's query:
`Video.created_at < cutoff_date  AND  Video.status != 'archived'`. -/
def cleanupEligible (cutoff : Int) (v : Video) : Bool :=
  decide (v.created_at < cutoff) && decide (v.status ≠ "archived")

/-- What the sweep's loop body does to one selected row:
`video.status = 'archived'` (the commented-out clearing of `storage_path` is
not executed, so every other column is left as it is). -/
def archiveVideo (v : Video) : Video :=
  { v with status := "archived" }

/-- The value of one sweep run: the store after commit, `success_count`, and
`space_reclaimed` (bytes summed over the archived rows). -/
structure SweepResult where
  db : DB
  archived_count : Nat
  bytes_reclaimed : Int
  deriving Repr, DecidableEq

/-- `cleanup_expired_videos`, embedded.  `now` is the value of
`datetime.utcnow()`; `blobDeleteOk v` tells whether
`minio_client.remove_object` succeeds for row `v` — its failure is caught,
logged and ignored, so the loop sets `status = 'archived'` either way and the
result cannot depend on it.  When `ENABLE_CLEANUP_JOB` is false the function
returns before any query. -/
def cleanup_expired_videos (cfg : CleanupSettings) (blobDeleteOk : Video → Bool)
    (now : Int) (db : DB) : SweepResult :=
  if cfg.ENABLE_CLEANUP_JOB = false then
    { db := db, archived_count := 0, bytes_reclaimed := 0 }
  else
    let cutoff := now - cfg.STORAGE_RETENTION_DAYS
    let videos_to_archive := db.videos.filter (cleanupEligible cutoff)
    let _ := videos_to_archive.map blobDeleteOk
    { db := { db with
        videos := db.videos.map
          (fun v => if cleanupEligible cutoff v then archiveVideo v else v) }
      archived_count := videos_to_archive.length
      bytes_reclaimed := (videos_to_archive.map (fun v => v.file_size)).sum }

/-! ## Quota admission (videos/router.py, config.py) -/

/-- config.py: `FREE_MINUTES_LIMIT: int = 60`. -/
def FREE_MINUTES_LIMIT : Nat := 60

/-- config.py: `STUDENT_MINUTES_LIMIT: int = 300`. -/
def STUDENT_MINUTES_LIMIT : Nat := 300

/-- config.py: `PRO_MINUTES_LIMIT: int = 999999  # Unlimited`. -/
def PRO_MINUTES_LIMIT : Nat := 999999

/-- videos/router.py `get_minutes_limit`: a dict lookup over the three tiers
with `limits.get(tier, settings.FREE_MINUTES_LIMIT)` as the default. -/
def get_minutes_limit (tier : String) : Nat :=
  if tier = "free" then FREE_MINUTES_LIMIT
  else if tier = "student" then STUDENT_MINUTES_LIMIT
  else if tier = "pro" then PRO_MINUTES_LIMIT
  else FREE_MINUTES_LIMIT

/-- The admission guard of `upload_video` and `upload_from_url`:
`if current_user.monthly_minutes_used >= minutes_limit: raise 402`. -/
def upload_admission_rejected (tier : String) (monthly_minutes_used : Nat) : Bool :=
  decide (monthly_minutes_used ≥ get_minutes_limit tier)

/-! ## Python string primitives for the summarizer (tasks.py generate_summary)

Python strings are `List Char`; each primitive mirrors one Python
construct. -/

/-- `text.replace(a, b)` for one-character patterns. -/
def pyReplaceChar (a b : Char) (s : List Char) : List Char :=
  s.map (fun c => if c = a then b else c)

/-- `text.split('.')`: pieces between occurrences of `'.'`, keeping empty
pieces (so `"a.b.".split('.') == ["a","b",""]` and `"".split('.') == [""]`). -/
def pySplitDot : List Char → List (List Char)
  | [] => [[]]
  | c :: cs =>
    if c = '.' then [] :: pySplitDot cs
    else
      match pySplitDot cs with
      | [] => [[c]]
      | s :: tail => (c :: s) :: tail

/-- Splitting on any of `'.'`, `'!'`, `'?'` in one pass — the spec's reading
of "split into units on `.`/`!`/`?`". -/
def pySplitSeps : List Char → List (List Char)
  | [] => [[]]
  | c :: cs =>
    if c = '.' ∨ c = '!' ∨ c = '?' then [] :: pySplitSeps cs
    else
      match pySplitSeps cs with
      | [] => [[c]]
      | s :: tail => (c :: s) :: tail

/-- `s.strip()`: drop leading and trailing whitespace. -/
def pyStrip (s : List Char) : List Char :=
  ((s.dropWhile Char.isWhitespace).reverse.dropWhile Char.isWhitespace).reverse

/-- tasks.py lines 186–187:
`sentences = text.replace('!', '.').replace('?', '.').split('.')`
then `[s.strip() for s in sentences if len(s.strip()) > 20]`. -/
def generate_summary_sentences (text : List Char) : List (List Char) :=
  let sentences := pySplitDot (pyReplaceChar '?' '.' (pyReplaceChar '!' '.' text))
  (sentences.filter (fun s => decide (20 < (pyStrip s).length))).map pyStrip

/-- tasks.py line 190:
`summary = '. '.join(sentences[:5]) + '.' if sentences else text[:500]`. -/
def generate_summary_summary (text : List Char) : List Char :=
  let sentences := generate_summary_sentences text
  if sentences.isEmpty then text.take 500
  else List.intercalate ". ".data (sentences.take 5) ++ ".".data

/-- tasks.py line 193:
`key_points = sentences[:10] if len(sentences) > 10 else sentences`. -/
def generate_summary_key_points (text : List Char) : List (List Char) :=
  let sentences := generate_summary_sentences text
  if 10 < sentences.length then sentences.take 10 else sentences

/-- The surviving units exactly as the claim words them: split on the three
sentence separators, strip, and discard fragments *under 20 characters* (so a
fragment of exactly 20 characters survives). -/
def claimed_surviving_units (text : List Char) : List (List Char) :=
  ((pySplitSeps text).map pyStrip).filter (fun s => decide (20 ≤ s.length))

/-- The surviving units with the amended threshold: only fragments strictly
longer than 20 characters survive. -/
def spec_surviving_units (text : List Char) : List (List Char) :=
  ((pySplitSeps text).map pyStrip).filter (fun s => decide (20 < s.length))

/-- Spec-level summary: first 5 surviving units joined with `". "` and a
trailing `'.'`, falling back to the first 500 characters of the raw text when
no unit survives. -/
def spec_summary (text : List Char) : List Char :=
  if spec_surviving_units text = [] then text.take 500
  else List.intercalate ". ".data ((spec_surviving_units text).take 5) ++ ".".data

/-- Spec-level key points: the first 10 surviving units (all, if fewer). -/
def spec_key_points (text : List Char) : List (List Char) :=
  (spec_surviving_units text).take 10

/-- A fragment of exactly 20 characters, with no sentence separator. -/
def sampleText20 : List Char := "This fragment has 20".data

/-! ## Recognition result and duration derivation (tasks.py) -/

/-- One Whisper segment dict; `seg_end` models `seg.get("end", ...)`, which
may be absent. -/
structure WhisperSegment where
  seg_start : ℚ
  seg_end : Option ℚ
  seg_text : String
  deriving Repr, DecidableEq

/-- Python's `int()` on a float: truncation toward zero. -/
def pyInt (q : ℚ) : Int :=
  q.num.tdiv (q.den : Int)

/-- The fields of `model.transcribe(...)` the task reads: `result["text"]`,
`result.get("segments", [])`, `result.get("language", language)`. -/
structure WhisperResult where
  text : List Char
  segments : List WhisperSegment
  language : Option String
  deriving Repr, DecidableEq

/-- tasks.py lines 105–108:
`duration_seconds = 0; if segments: duration_seconds =
int(segments[-1].get("end", 0))`. -/
def durationSecondsFromSegments (segments : List WhisperSegment) : Int :=
  match segments.getLast? with
  | none => 0
  | some seg => pyInt (seg.seg_end.getD 0)

/-! ## The transcribe_video task and its Celery retry driver (tasks.py) -/

/-- tasks.py line 20: `max_retries=3`. -/
def transcribe_max_retries : Nat := 3

/-- tasks.py line 20: `default_retry_delay=60` — the fixed backoff, in
seconds, applied to every retry. -/
def transcribe_default_retry_delay : Nat := 60

/-- The outcome of one execution of the stages inside the `try` block: either
a recognition result reaches the persist step, or some stage raises with a
message (`str(e)`). -/
inductive StageOutcome where
  | ok (res : WhisperResult)
  | raise (msg : String)
  deriving Repr, DecidableEq

/-- Whether an execution with this outcome returns instead of retrying. -/
def attemptSucceeds : StageOutcome → Bool
  | .ok _ => true
  | .raise _ => false

/-- tasks.py lines 37–40: the first committed write of every execution,
`update(Video).values(status="processing")`. -/
def setProcessing (vid : Nat) (db : DB) : DB :=
  db.updateVideo vid (fun v => { v with status := "processing" })

/-- tasks.py lines 119–141: the single commit that persists the new
transcription row (fresh id `newTid`, language `result.get("language",
language)`, text `result["text"].strip()`) together with the status flip to
`completed` and the derived duration.  `processed_at` is not among the values
written. -/
def persistSuccess (vid : Nat) (language : String) (res : WhisperResult)
    (newTid : Nat) (db : DB) : DB :=
  let transcription : Transcription :=
    { id := newTid, video_id := vid, language := res.language.getD language
      text := pyStrip res.text }
  let db1 : DB := { db with transcriptions := db.transcriptions ++ [transcription] }
  db1.updateVideo vid (fun v =>
    { v with status := "completed"
             duration_seconds := some (durationSecondsFromSegments res.segments) })

/-- tasks.py lines 151–159: the `except` block's committed write,
`update(Video).values(status="error", error_message=str(e))`, executed on
*every* failing attempt before `raise self.retry(exc=e)`. -/
def persistError (vid : Nat) (msg : String) (db : DB) : DB :=
  db.updateVideo vid (fun v =>
    { v with status := "error", error_message := some msg })

/-- The store after one full execution of the task body. -/
def attemptFinal (vid : Nat) (language : String) (newTid : Nat)
    (outcome : StageOutcome) (db : DB) : DB :=
  let db1 := setProcessing vid db
  match outcome with
  | .ok res => persistSuccess vid language res newTid db1
  | .raise msg => persistError vid msg db1

/-- The committed (externally visible) states of one execution, in order: the
`processing` commit, then the success or error commit. -/
def attemptStates (vid : Nat) (language : String) (newTid : Nat)
    (outcome : StageOutcome) (db : DB) : List DB :=
  [setProcessing vid db, attemptFinal vid language newTid outcome db]

/-- The Celery driver: execution `k` sees outcome `outcomes k` and draws the
fresh transcription id `tids k`; a successful execution returns; a failing
one calls `self.retry`, which re-executes while retries remain and re-raises
the last exception once they are exhausted.  Returns every committed state in
order. -/
def transcribe_video_trace (vid : Nat) (language : String)
    (outcomes : Nat → StageOutcome) (tids : Nat → Nat) :
    Nat → Nat → DB → List DB
  | k, 0, db => attemptStates vid language (tids k) (outcomes k) db
  | k, r + 1, db =>
    if attemptSucceeds (outcomes k) then
      attemptStates vid language (tids k) (outcomes k) db
    else
      attemptStates vid language (tids k) (outcomes k) db ++
        transcribe_video_trace vid language outcomes tids (k + 1) r
          (attemptFinal vid language (tids k) (outcomes k) db)

/-- The final store of the driver. -/
def transcribe_video_final (vid : Nat) (language : String)
    (outcomes : Nat → StageOutcome) (tids : Nat → Nat) :
    Nat → Nat → DB → DB
  | k, 0, db => attemptFinal vid language (tids k) (outcomes k) db
  | k, r + 1, db =>
    if attemptSucceeds (outcomes k) then
      attemptFinal vid language (tids k) (outcomes k) db
    else
      transcribe_video_final vid language outcomes tids (k + 1) r
        (attemptFinal vid language (tids k) (outcomes k) db)

/-- How many times the task body executes, starting at execution `k` with
`retriesLeft` retries remaining. -/
def transcribe_executions (outcomes : Nat → StageOutcome) : Nat → Nat → Nat
  | _, 0 => 1
  | k, r + 1 => if attemptSucceeds (outcomes k) then 1
                else 1 + transcribe_executions outcomes (k + 1) r

/-- A full task invocation as Celery performs it: execution 0 with
`max_retries` retries available. -/
def transcribe_video_run (vid : Nat) (language : String)
    (outcomes : Nat → StageOutcome) (tids : Nat → Nat) (db : DB) : List DB :=
  transcribe_video_trace vid language outcomes tids 0 transcribe_max_retries db

/-- transcriptions/router.py `create_transcription`: validates the language,
requires the video to exist and be `completed`, rejects a duplicate
`(video_id, language)` pair with 409, and only then inserts a new row. -/
def create_transcription_route (db : DB) (userId vid : Nat) (lang : String)
    (newTid : Nat) : Except String DB :=
  if ¬ (lang = "en" ∨ lang = "ru") then
    .error "Supported languages: en (English), ru (Russian)"
  else
    match db.videos.find?
        (fun v => decide (v.id = vid) && decide (v.user_id = userId)) with
    | none => .error "Video not found"
    | some video =>
      if video.status ≠ "completed" then .error "Video is not yet processed"
      else if db.transcriptions.any
          (fun t => decide (t.video_id = vid) && decide (t.language = lang)) then
        .error "Transcription in this language already exists for this video"
      else
        .ok { db with transcriptions := db.transcriptions ++
          [{ id := newTid, video_id := vid, language := lang
             text := "Transcription processing...".data }] }

/-- The invariant of claim C6: every `completed` video has a transcript row. -/
def DB.CompletedHasTranscript (db : DB) : Prop :=
  ∀ v ∈ db.videos, v.status = "completed" →
    ∃ t ∈ db.transcriptions, t.video_id = v.id

/-! ## Concrete sample data for witnesses and counterexamples -/

/-- A freshly uploaded job, exactly as `upload_video` creates it
(`status="pending"`, nothing else filled in). -/
def pendingVideo : Video :=
  { id := 1, user_id := 7, original_filename := "talk.mp4"
    storage_path := "videos/7/1/talk.mp4", file_size := 2000
    duration_seconds := none, status := "pending", error_message := none
    created_at := 0, processed_at := none }

/-- The store right after the upload of `pendingVideo`. -/
def uploadedDB : DB :=
  { videos := [pendingVideo], transcriptions := [] }

/-- A concrete completed job, 100 time units old at clock 100, used to
instantiate the cleanup theorems. -/
def sampleOldVideo : Video :=
  { id := 1, user_id := 1, original_filename := "lecture.mp4"
    storage_path := "videos/1/1/lecture.mp4", file_size := 1000
    duration_seconds := some 125, status := "completed", error_message := none
    created_at := 0, processed_at := none }

/-- A concrete transcript row for `sampleOldVideo`. -/
def sampleTranscript : Transcription :=
  { id := 10, video_id := 1, language := "en"
    text := "hello world, this is the transcript text".data }

/-- A concrete recognition result whose segments end at 125.0 seconds. -/
def sampleResult : WhisperResult :=
  { text := " hello world this is a lecture ".data
    segments := [ { seg_start := 0, seg_end := some 60, seg_text := "part one" }
                , { seg_start := 60, seg_end := some 125, seg_text := "part two" } ]
    language := some "en" }

/-- A concrete recognition result with zero segments (silent audio). -/
def emptyResult : WhisperResult :=
  { text := "".data, segments := [], language := some "en" }

/-- Distinct exception messages for the four failing executions. -/
def failMsg : Nat → String
  | 0 => "FFmpeg error: boom0"
  | 1 => "FFmpeg error: boom1"
  | 2 => "FFmpeg error: boom2"
  | _ => "FFmpeg error: boom3"


/-- A concrete outcome schedule: the first execution raises, the retry
succeeds. -/
def mixedOutcomes : Nat → StageOutcome :=
  fun n => if n = 0 then .raise "FFmpeg error: transient" else .ok sampleResult

/-! ## Theorems -/

/-- An archived row is never again eligible. -/
theorem cleanupEligible_archive (cutoff : Int) (v : Video) :
    cleanupEligible cutoff (archiveVideo v) = false := by
  simp [cleanupEligible, archiveVideo]

/-- A list is unchanged by mapping a function that fixes each of its
elements. -/
theorem list_map_eq_self {α : Type} {f : α → α} :
    ∀ {l : List α}, (∀ a ∈ l, f a = a) → l.map f = l := by
  intro l
  induction l with
  | nil => intro _; rfl
  | cons x xs ih =>
      intro h
      simp only [List.map_cons, h x (List.mem_cons_self x xs),
        ih (fun a ha => h a (List.mem_cons_of_mem x ha))]

/-- Mapping a function pointwise related to the identity yields a
`Forall₂`-related list. -/
theorem list_forall₂_map_self {α : Type} {R : α → α → Prop} (f : α → α)
    (hf : ∀ x : α, R x (f x)) : ∀ l : List α, List.Forall₂ R l (l.map f)
  | [] => List.Forall₂.nil
  | x :: xs => List.Forall₂.cons (hf x) (list_forall₂_map_self f hf xs)

/-- After one enabled sweep at `now`, no row of the resulting store passes the
eligibility filter for the same cutoff. -/
theorem sweep_leaves_nothing_eligible (cfg : CleanupSettings)
    (blobDeleteOk : Video → Bool) (now : Int) (db : DB)
    (henabled : cfg.ENABLE_CLEANUP_JOB = true) :
    (cleanup_expired_videos cfg blobDeleteOk now db).db.videos.filter
      (cleanupEligible (now - cfg.STORAGE_RETENTION_DAYS)) = [] := by
  simp only [cleanup_expired_videos, henabled, Bool.true_eq_false, if_false,
    List.filter_eq_nil_iff]
  intro v hv
  simp only [List.mem_map] at hv
  obtain ⟨w, _, rfl⟩ := hv
  by_cases hw : cleanupEligible (now - cfg.STORAGE_RETENTION_DAYS) w = true
  · simp [hw, cleanupEligible_archive]
  · simp only [hw, if_false]
    exact Bool.not_eq_true _ ▸ hw

/-- A sweep run on a store with no eligible row returns the store unchanged
and reports zero work. -/
theorem cleanup_run_of_no_eligible (cfg : CleanupSettings)
    (blobDeleteOk : Video → Bool) (now : Int) (db : DB)
    (h : db.videos.filter (cleanupEligible (now - cfg.STORAGE_RETENTION_DAYS)) = []) :
    cleanup_expired_videos cfg blobDeleteOk now db =
      { db := db, archived_count := 0, bytes_reclaimed := 0 } := by
  rw [List.filter_eq_nil_iff] at h
  cases henabled : cfg.ENABLE_CLEANUP_JOB with
  | false => simp [cleanup_expired_videos, henabled]
  | true =>
      simp only [cleanup_expired_videos, henabled, Bool.true_eq_false, if_false]
      have hfilter :
          db.videos.filter (cleanupEligible (now - cfg.STORAGE_RETENTION_DAYS)) = [] :=
        List.filter_eq_nil_iff.mpr h
      have hmap : db.videos.map
          (fun v => if cleanupEligible (now - cfg.STORAGE_RETENTION_DAYS) v
                    then archiveVideo v else v) = db.videos := by
        apply list_map_eq_self
        intro v hv
        have := h v hv
        simp only [Bool.not_eq_true] at this
        simp [this]
      simp [hfilter, hmap]

/-- Claim C7: the cleanup sweep is idempotent — running it a second time at
the same clock value on the store the first run produced archives zero jobs,
reclaims zero bytes, and leaves the store exactly as the first run left it;
when the job is enabled this is because after the first run no row passes the
second run's eligibility scan. -/
theorem cleanup_sweep_idempotent (cfg : CleanupSettings)
    (blobDeleteOk : Video → Bool) (now : Int) (db : DB) :
    cleanup_expired_videos cfg blobDeleteOk now
        (cleanup_expired_videos cfg blobDeleteOk now db).db =
      { db := (cleanup_expired_videos cfg blobDeleteOk now db).db
        archived_count := 0, bytes_reclaimed := 0 } ∧
    (cfg.ENABLE_CLEANUP_JOB = true →
      (cleanup_expired_videos cfg blobDeleteOk now db).db.videos.filter
        (cleanupEligible (now - cfg.STORAGE_RETENTION_DAYS)) = []) := by
  cases henabled : cfg.ENABLE_CLEANUP_JOB with
  | false =>
      have hid : ∀ d : DB, cleanup_expired_videos cfg blobDeleteOk now d =
          { db := d, archived_count := 0, bytes_reclaimed := 0 } := by
        intro d; simp [cleanup_expired_videos, henabled]
      exact ⟨by rw [hid, hid], fun hcontra => absurd hcontra (by simp)⟩
  | true =>
      have h := sweep_leaves_nothing_eligible cfg blobDeleteOk now db henabled
      exact ⟨cleanup_run_of_no_eligible cfg blobDeleteOk now
          (cleanup_expired_videos cfg blobDeleteOk now db).db h,
        fun _ => h⟩

/-- Witness for Claim C7 at a concrete store: one 100-units-old completed job
with its transcript, default settings, clock 100. -/
theorem cleanup_sweep_idempotent_witness :
    cleanup_expired_videos defaultCleanupSettings (fun _ => true) 100
        (cleanup_expired_videos defaultCleanupSettings (fun _ => true) 100
          { videos := [sampleOldVideo], transcriptions := [sampleTranscript] }).db =
      { db := (cleanup_expired_videos defaultCleanupSettings (fun _ => true) 100
          { videos := [sampleOldVideo], transcriptions := [sampleTranscript] }).db
        archived_count := 0, bytes_reclaimed := 0 } ∧
    (cleanup_expired_videos defaultCleanupSettings (fun _ => true) 100
        { videos := [sampleOldVideo], transcriptions := [sampleTranscript] }).db.videos.filter
      (cleanupEligible (100 - defaultCleanupSettings.STORAGE_RETENTION_DAYS)) = [] :=
  ⟨(cleanup_sweep_idempotent defaultCleanupSettings (fun _ => true) 100
      { videos := [sampleOldVideo], transcriptions := [sampleTranscript] }).1,
   (cleanup_sweep_idempotent defaultCleanupSettings (fun _ => true) 100
      { videos := [sampleOldVideo], transcriptions := [sampleTranscript] }).2 rfl⟩

/-- Claim C8: with `ENABLE_CLEANUP_JOB = false`, a sweep run is a no-op — it
archives zero jobs, reclaims zero bytes and returns every record unchanged,
whatever the jobs' ages. -/
theorem cleanup_disabled_noop (cfg : CleanupSettings)
    (blobDeleteOk : Video → Bool) (now : Int) (db : DB)
    (hdisabled : cfg.ENABLE_CLEANUP_JOB = false) :
    cleanup_expired_videos cfg blobDeleteOk now db =
      { db := db, archived_count := 0, bytes_reclaimed := 0 } := by
  simp [cleanup_expired_videos, hdisabled]

/-- Witness for Claim C8: a job 100 units past a 7-unit retention horizon is
still untouched when the flag is off. -/
theorem cleanup_disabled_noop_witness :
    cleanup_expired_videos
        { STORAGE_RETENTION_DAYS := 7, ENABLE_CLEANUP_JOB := false }
        (fun _ => true) 100
        { videos := [sampleOldVideo], transcriptions := [sampleTranscript] } =
      { db := { videos := [sampleOldVideo], transcriptions := [sampleTranscript] }
        archived_count := 0, bytes_reclaimed := 0 } :=
  cleanup_disabled_noop _ _ _ _ rfl

/-- Claim C10: a sweep run never touches the `transcriptions` table, its
result does not depend on the blob-deletion outcomes, and each `videos` row is
either left untouched or has exactly its `status` column set to `archived` —
every other column (storage path, size, timestamps, error message, duration)
is preserved. -/
theorem cleanup_sweep_frame (cfg : CleanupSettings) (f g : Video → Bool)
    (now : Int) (db : DB) :
    (cleanup_expired_videos cfg f now db).db.transcriptions = db.transcriptions ∧
    cleanup_expired_videos cfg g now db = cleanup_expired_videos cfg f now db ∧
    List.Forall₂ (fun v w : Video =>
        w.id = v.id ∧ w.user_id = v.user_id ∧
        w.original_filename = v.original_filename ∧
        w.storage_path = v.storage_path ∧ w.file_size = v.file_size ∧
        w.duration_seconds = v.duration_seconds ∧
        w.error_message = v.error_message ∧ w.created_at = v.created_at ∧
        w.processed_at = v.processed_at ∧
        (w.status = v.status ∨ w.status = "archived"))
      db.videos (cleanup_expired_videos cfg f now db).db.videos := by
  refine ⟨?_, rfl, ?_⟩
  · cases henabled : cfg.ENABLE_CLEANUP_JOB <;>
      simp [cleanup_expired_videos, henabled]
  · cases henabled : cfg.ENABLE_CLEANUP_JOB with
    | false =>
        simp only [cleanup_expired_videos, henabled]
        exact List.forall₂_same.2 (fun v _ =>
          ⟨rfl, rfl, rfl, rfl, rfl, rfl, rfl, rfl, rfl, Or.inl rfl⟩)
    | true =>
        simp only [cleanup_expired_videos, henabled, Bool.true_eq_false, if_false]
        exact list_forall₂_map_self _
          (fun v => by
            by_cases hv : cleanupEligible (now - cfg.STORAGE_RETENTION_DAYS) v = true
            · simp only [hv, if_true]
              exact ⟨rfl, rfl, rfl, rfl, rfl, rfl, rfl, rfl, rfl, Or.inr rfl⟩
            · simp only [hv, if_false]
              exact ⟨rfl, rfl, rfl, rfl, rfl, rfl, rfl, rfl, rfl, Or.inl rfl⟩)
          db.videos

/-- Every tier ceiling is positive. -/
theorem get_minutes_limit_pos (tier : String) : 0 < get_minutes_limit tier := by
  unfold get_minutes_limit FREE_MINUTES_LIMIT STUDENT_MINUTES_LIMIT PRO_MINUTES_LIMIT
  split_ifs <;> norm_num

/-- Claim C5: admission is rejected exactly when monthly minutes used reach
the tier ceiling (`used == ceiling` rejected, `used == ceiling − 1`
admitted); the ceilings are 60 for `free`, 300 for `student`, 999999
(effectively unlimited) for `pro`, and every unknown tier falls back to the
`free` ceiling. -/
theorem quota_admission_policy (tier : String) (used : Nat) :
    (upload_admission_rejected tier used = true ↔ get_minutes_limit tier ≤ used) ∧
    upload_admission_rejected tier (get_minutes_limit tier) = true ∧
    upload_admission_rejected tier (get_minutes_limit tier - 1) = false ∧
    get_minutes_limit "free" = 60 ∧
    get_minutes_limit "student" = 300 ∧
    get_minutes_limit "pro" = 999999 ∧
    (tier ≠ "free" → tier ≠ "student" → tier ≠ "pro" →
      get_minutes_limit tier = FREE_MINUTES_LIMIT) := by
  refine ⟨?_, ?_, ?_, by decide, by decide, by decide, ?_⟩
  · simp [upload_admission_rejected, ge_iff_le]
  · simp [upload_admission_rejected]
  · have hpos := get_minutes_limit_pos tier
    simp only [upload_admission_rejected, ge_iff_le, decide_eq_false_iff_not]
    omega
  · intro h1 h2 h3
    simp [get_minutes_limit, h1, h2, h3]

/-- Witness for Claim C5: an unknown tier gets the free ceiling; at the free
ceiling admission is rejected, one minute below it is admitted. -/
theorem quota_admission_policy_witness :
    get_minutes_limit "enterprise" = FREE_MINUTES_LIMIT ∧
    upload_admission_rejected "free" (get_minutes_limit "free") = true ∧
    upload_admission_rejected "free" (get_minutes_limit "free" - 1) = false :=
  ⟨(quota_admission_policy "enterprise" 0).2.2.2.2.2.2
      (by decide) (by decide) (by decide),
   (quota_admission_policy "free" 0).2.1,
   (quota_admission_policy "free" 0).2.2.1⟩


/-- Updating the matching row commutes with looking it up, provided the
update preserves the row id. -/
theorem find?_update_list (vid : Nat) (f : Video → Video)
    (hf : ∀ v, (f v).id = v.id) :
    ∀ l : List Video,
      (l.map (fun v => if v.id = vid then f v else v)).find?
          (fun v => decide (v.id = vid)) =
        (l.find? (fun v => decide (v.id = vid))).map f
  | [] => rfl
  | w :: ws => by
    by_cases hw : w.id = vid
    · simp [List.find?_cons, hw, hf w]
    · have hd : (decide (w.id = vid)) = false := decide_eq_false hw
      rw [List.map_cons, if_neg hw, List.find?_cons, List.find?_cons, hd]
      simp only [cond_false]
      exact find?_update_list vid f hf ws

/-- A failing execution leaves the job row in `error` with the raised
message. -/
theorem getVideo_attemptFinal_raise (vid : Nat) (language : String)
    (newTid : Nat) (msg : String) (db : DB) :
    (attemptFinal vid language newTid (.raise msg) db).getVideo vid =
      (db.getVideo vid).map (fun v =>
        { v with status := "error", error_message := some msg }) := by
  simp only [attemptFinal, persistError, setProcessing, DB.updateVideo, DB.getVideo]
  rw [find?_update_list vid
      (fun v => { v with status := "error", error_message := some msg })
      (fun v => rfl),
    find?_update_list vid (fun v => { v with status := "processing" })
      (fun v => rfl),
    Option.map_map]
  rfl

/-- A successful execution leaves the job row `completed` with the derived
duration. -/
theorem getVideo_attemptFinal_ok (vid : Nat) (language : String)
    (newTid : Nat) (res : WhisperResult) (db : DB) :
    (attemptFinal vid language newTid (.ok res) db).getVideo vid =
      (db.getVideo vid).map (fun v =>
        { v with status := "completed"
                 duration_seconds := some (durationSecondsFromSegments res.segments) }) := by
  simp only [attemptFinal, persistSuccess, setProcessing, DB.updateVideo, DB.getVideo]
  rw [find?_update_list vid
      (fun v => { v with status := "completed"
                         duration_seconds := some (durationSecondsFromSegments res.segments) })
      (fun v => rfl),
    find?_update_list vid (fun v => { v with status := "processing" })
      (fun v => rfl),
    Option.map_map]
  rfl

/-- Claim C9: the persisted duration is the truncated end time of the last
recognition segment — zero segments give duration 0 — and a result with zero
segments still takes the success path: the job completes with its duration
persisted, it is not marked `error`. -/
theorem duration_derivation (res : WhisperResult) (vid : Nat)
    (language : String) (tids : Nat → Nat) (db : DB) (v : Video)
    (hv : db.getVideo vid = some v) :
    (res.segments = [] → durationSecondsFromSegments res.segments = 0) ∧
    (∀ seg q, res.segments.getLast? = some seg → seg.seg_end = some q →
      durationSecondsFromSegments res.segments = pyInt q) ∧
    pyInt (125 : ℚ) = 125 ∧
    (transcribe_video_final vid language (fun _ => .ok res) tids 0
        transcribe_max_retries db).getVideo vid =
      some { v with status := "completed"
                    duration_seconds := some (durationSecondsFromSegments res.segments) } := by
  refine ⟨?_, ?_, by decide, ?_⟩
  · intro h
    simp [durationSecondsFromSegments, h]
  · intro seg q hseg hq
    simp [durationSecondsFromSegments, hseg, hq]
  · show (transcribe_video_final vid language (fun _ => .ok res) tids 0 (2 + 1) db).getVideo vid = _
    rw [transcribe_video_final]
    simp only [attemptSucceeds, if_true]
    rw [getVideo_attemptFinal_ok, hv]
    rfl

/-- Witness for Claim C9: segments ending at 125.0 give duration 125 and a
completed row; zero segments give duration 0 and still a completed row. -/
theorem duration_derivation_witness :
    durationSecondsFromSegments sampleResult.segments = 125 ∧
    (transcribe_video_final 1 "en" (fun _ => .ok sampleResult) (fun n => 100 + n) 0
        transcribe_max_retries uploadedDB).getVideo 1 =
      some { pendingVideo with status := "completed", duration_seconds := some 125 } ∧
    durationSecondsFromSegments emptyResult.segments = 0 ∧
    (transcribe_video_final 1 "en" (fun _ => .ok emptyResult) (fun n => 100 + n) 0
        transcribe_max_retries uploadedDB).getVideo 1 =
      some { pendingVideo with status := "completed", duration_seconds := some 0 } := by
  have h125 : durationSecondsFromSegments sampleResult.segments = 125 :=
    (duration_derivation sampleResult 1 "en" (fun n => 100 + n) uploadedDB
        pendingVideo rfl).2.1
      { seg_start := 60, seg_end := some 125, seg_text := "part two" } 125 rfl rfl
  have h0 : durationSecondsFromSegments emptyResult.segments = 0 :=
    (duration_derivation emptyResult 1 "en" (fun n => 100 + n) uploadedDB
        pendingVideo rfl).1 rfl
  refine ⟨h125, ?_, h0, ?_⟩
  · have := (duration_derivation sampleResult 1 "en" (fun n => 100 + n) uploadedDB
        pendingVideo rfl).2.2.2
    rw [h125] at this
    exact this
  · have := (duration_derivation emptyResult 1 "en" (fun n => 100 + n) uploadedDB
        pendingVideo rfl).2.2.2
    rw [h0] at this
    exact this

/-- Final row state when every execution raises: `error` with the message of
the last execution, `k + r`. -/
theorem final_getVideo_allfail (vid : Nat) (language : String)
    (msgs : Nat → String) (tids : Nat → Nat) :
    ∀ (r k : Nat) (db : DB) (v : Video), db.getVideo vid = some v →
      (transcribe_video_final vid language (fun n => .raise (msgs n)) tids k r
          db).getVideo vid =
        some { v with status := "error", error_message := some (msgs (k + r)) }
  | 0, k, db, v, hv => by
    rw [transcribe_video_final, getVideo_attemptFinal_raise, hv]
    rfl
  | r + 1, k, db, v, hv => by
    rw [transcribe_video_final]
    simp only [attemptSucceeds, Bool.false_eq_true, if_false]
    have hv' : (attemptFinal vid language (tids k) (.raise (msgs k)) db).getVideo vid =
        some { v with status := "error", error_message := some (msgs k) } := by
      rw [getVideo_attemptFinal_raise, hv]; rfl
    have := final_getVideo_allfail vid language msgs tids r (k + 1)
      (attemptFinal vid language (tids k) (.raise (msgs k)) db)
      { v with status := "error", error_message := some (msgs k) } hv'
    rw [this]
    have harith : k + 1 + r = k + (r + 1) := by omega
    rw [harith]

/-- When every execution raises, the driver performs `r + 1` executions. -/
theorem executions_allfail (msgs : Nat → String) :
    ∀ (r k : Nat),
      transcribe_executions (fun n => .raise (msgs n)) k r = r + 1
  | 0, _ => rfl
  | r + 1, k => by
    rw [transcribe_executions]
    simp only [attemptSucceeds, Bool.false_eq_true, if_false]
    rw [executions_allfail msgs r (k + 1)]
    omega

/-- When every execution raises, the trace holds two committed states per
execution. -/
theorem trace_length_allfail (vid : Nat) (language : String)
    (msgs : Nat → String) (tids : Nat → Nat) :
    ∀ (r k : Nat) (db : DB),
      (transcribe_video_trace vid language (fun n => .raise (msgs n)) tids k r
          db).length = 2 * (r + 1)
  | 0, _, _ => rfl
  | r + 1, k, db => by
    rw [transcribe_video_trace]
    simp only [attemptSucceeds, Bool.false_eq_true, if_false, List.length_append]
    rw [trace_length_allfail vid language msgs tids r (k + 1)]
    simp only [attemptStates, List.length_cons, List.length_nil]
    omega

/-- Claim C1 (amended): with `max_retries = 3` and a stage that always
raises, the task body runs 4 times (1 initial + exactly 3 retries, each with
the fixed 60-second backoff) and then stops; the final state is `error` with
the 4th (last) exception's message.  The job is *not* marked `error` only at
exhaustion: the except-handler commits `error` plus the current message after
every failing execution (see the counterexample theorem). -/
theorem transcribe_always_fail_retry_policy (vid : Nat) (language : String)
    (msgs : Nat → String) (tids : Nat → Nat) (db : DB) (v : Video)
    (hv : db.getVideo vid = some v) :
    transcribe_max_retries = 3 ∧
    transcribe_default_retry_delay = 60 ∧
    transcribe_executions (fun n => .raise (msgs n)) 0 transcribe_max_retries =
      transcribe_max_retries + 1 ∧
    (transcribe_video_final vid language (fun n => .raise (msgs n)) tids 0
        transcribe_max_retries db).getVideo vid =
      some { v with status := "error"
                    error_message := some (msgs transcribe_max_retries) } ∧
    (transcribe_video_run vid language (fun n => .raise (msgs n)) tids db).length =
      2 * (transcribe_max_retries + 1) := by
  refine ⟨rfl, rfl, executions_allfail msgs transcribe_max_retries 0, ?_,
    trace_length_allfail vid language msgs tids transcribe_max_retries 0 db⟩
  have := final_getVideo_allfail vid language msgs tids transcribe_max_retries 0 db v hv
  rw [this, Nat.zero_add]

/-- Witness for Claim C1 at the concrete uploaded store and the concrete
failing messages. -/
theorem transcribe_always_fail_retry_policy_witness :
    transcribe_executions (fun n => .raise (failMsg n)) 0 transcribe_max_retries =
      transcribe_max_retries + 1 ∧
    (transcribe_video_final 1 "en" (fun n => .raise (failMsg n)) (fun n => 100 + n) 0
        transcribe_max_retries uploadedDB).getVideo 1 =
      some { pendingVideo with status := "error"
                               error_message := some (failMsg transcribe_max_retries) } ∧
    (transcribe_video_run 1 "en" (fun n => .raise (failMsg n)) (fun n => 100 + n)
        uploadedDB).length = 2 * (transcribe_max_retries + 1) := by
  have h := transcribe_always_fail_retry_policy 1 "en" failMsg (fun n => 100 + n)
    uploadedDB pendingVideo rfl
  exact ⟨h.2.2.1, h.2.2.2.1, h.2.2.2.2⟩

/-- Claim C1 counterexample: already after the very first failed execution —
when all three retries are still pending — the job row is committed as
`error` with that execution's message; the trace then continues for three
more executions (8 committed states in total), so the job is marked `error`
well before retries are exhausted. -/
theorem transcribe_error_before_retries_exhausted :
    ((transcribe_video_run 1 "en" (fun n => .raise (failMsg n)) (fun n => 100 + n)
        uploadedDB)[1]?).map (fun d => d.getVideo 1) =
      some (some { pendingVideo with status := "error"
                                     error_message := some (failMsg 0) }) ∧
    (transcribe_video_run 1 "en" (fun n => .raise (failMsg n)) (fun n => 100 + n)
        uploadedDB).length = 8 := by
  decide

/-- Claim C2 (code bug): the pipeline's transitions into `completed` and into
`error` write status, duration and message but never `processed_at` — after a
successful run the job is `completed` with `processed_at` still NULL, and
after an exhausted failing run it is `error` with `processed_at` still NULL,
contradicting the invariant that `processed_at` is non-null exactly on
`completed`/`error` jobs. -/
theorem processed_at_never_written :
    ((transcribe_video_final 1 "en" (fun _ => .ok sampleResult) (fun n => 100 + n) 0
        transcribe_max_retries uploadedDB).getVideo 1).map (fun v => v.status) =
      some "completed" ∧
    ((transcribe_video_final 1 "en" (fun _ => .ok sampleResult) (fun n => 100 + n) 0
        transcribe_max_retries uploadedDB).getVideo 1).map (fun v => v.processed_at) =
      some none ∧
    ((transcribe_video_final 1 "en" (fun n => .raise (failMsg n)) (fun n => 100 + n) 0
        transcribe_max_retries uploadedDB).getVideo 1).map (fun v => v.status) =
      some "error" ∧
    ((transcribe_video_final 1 "en" (fun n => .raise (failMsg n)) (fun n => 100 + n) 0
        transcribe_max_retries uploadedDB).getVideo 1).map (fun v => v.processed_at) =
      some none := by
  decide

/-- The `processing` commit preserves the completed-has-transcript
invariant. -/
theorem CompletedHasTranscript_setProcessing (vid : Nat) (db : DB)
    (h : db.CompletedHasTranscript) :
    (setProcessing vid db).CompletedHasTranscript := by
  intro v' hv' hst
  simp only [setProcessing, DB.updateVideo, List.mem_map] at hv'
  obtain ⟨v, hv, rfl⟩ := hv'
  by_cases hid : v.id = vid
  · rw [if_pos hid] at hst
    simp at hst
  · rw [if_neg hid] at hst ⊢
    exact h v hv hst

/-- The `error` commit preserves the completed-has-transcript invariant. -/
theorem CompletedHasTranscript_persistError (vid : Nat) (msg : String) (db : DB)
    (h : db.CompletedHasTranscript) :
    (persistError vid msg db).CompletedHasTranscript := by
  intro v' hv' hst
  simp only [persistError, DB.updateVideo, List.mem_map] at hv'
  obtain ⟨v, hv, rfl⟩ := hv'
  by_cases hid : v.id = vid
  · rw [if_pos hid] at hst
    simp at hst
  · rw [if_neg hid] at hst ⊢
    exact h v hv hst

/-- The success commit sets `completed` and inserts the transcript row in the
same atomic step, so the invariant is preserved. -/
theorem CompletedHasTranscript_persistSuccess (vid : Nat) (language : String)
    (res : WhisperResult) (newTid : Nat) (db : DB)
    (h : db.CompletedHasTranscript) :
    (persistSuccess vid language res newTid db).CompletedHasTranscript := by
  intro v' hv' hst
  simp only [persistSuccess, DB.updateVideo, List.mem_map] at hv'
  obtain ⟨v, hv, rfl⟩ := hv'
  by_cases hid : v.id = vid
  · refine ⟨{ id := newTid, video_id := vid
              language := res.language.getD language, text := pyStrip res.text },
      List.mem_append_right _ (List.mem_singleton.mpr rfl), ?_⟩
    rw [if_pos hid]
    exact hid.symm
  · rw [if_neg hid] at hst ⊢
    obtain ⟨t, ht, htv⟩ := h v hv hst
    exact ⟨t, List.mem_append_left _ ht, htv⟩

/-- One full execution preserves the invariant. -/
theorem CompletedHasTranscript_attemptFinal (vid : Nat) (language : String)
    (newTid : Nat) (outcome : StageOutcome) (db : DB)
    (h : db.CompletedHasTranscript) :
    (attemptFinal vid language newTid outcome db).CompletedHasTranscript := by
  cases outcome with
  | ok res =>
      exact CompletedHasTranscript_persistSuccess vid language res newTid _
        (CompletedHasTranscript_setProcessing vid db h)
  | raise msg =>
      exact CompletedHasTranscript_persistError vid msg _
        (CompletedHasTranscript_setProcessing vid db h)

/-- Every committed state of the driver preserves the invariant. -/
theorem CompletedHasTranscript_trace (vid : Nat) (language : String)
    (outcomes : Nat → StageOutcome) (tids : Nat → Nat) :
    ∀ (r k : Nat) (db : DB), db.CompletedHasTranscript →
      ∀ s ∈ transcribe_video_trace vid language outcomes tids k r db,
        s.CompletedHasTranscript
  | 0, k, db, h, s, hs => by
    rw [transcribe_video_trace] at hs
    simp only [attemptStates, List.mem_cons, List.not_mem_nil, or_false] at hs
    rcases hs with rfl | rfl
    · exact CompletedHasTranscript_setProcessing vid db h
    · exact CompletedHasTranscript_attemptFinal vid language (tids k) (outcomes k) db h
  | r + 1, k, db, h, s, hs => by
    rw [transcribe_video_trace] at hs
    by_cases hsuc : attemptSucceeds (outcomes k) = true
    · rw [if_pos hsuc] at hs
      simp only [attemptStates, List.mem_cons, List.not_mem_nil, or_false] at hs
      rcases hs with rfl | rfl
      · exact CompletedHasTranscript_setProcessing vid db h
      · exact CompletedHasTranscript_attemptFinal vid language (tids k) (outcomes k) db h
    · rw [if_neg hsuc] at hs
      rcases List.mem_append.mp hs with hmem | hmem
      · simp only [attemptStates, List.mem_cons, List.not_mem_nil, or_false] at hmem
        rcases hmem with rfl | rfl
        · exact CompletedHasTranscript_setProcessing vid db h
        · exact CompletedHasTranscript_attemptFinal vid language (tids k) (outcomes k) db h
      · exact CompletedHasTranscript_trace vid language outcomes tids r (k + 1)
          (attemptFinal vid language (tids k) (outcomes k) db)
          (CompletedHasTranscript_attemptFinal vid language (tids k) (outcomes k) db h)
          s hmem

/-- Claim C6: in a task run started on a store where every `completed` job
already has a transcript, every committed state — including the one that
flips the job to `completed` — still has a transcript row for every
`completed` job: the transcript insert and the status flip commit
atomically. -/
theorem completed_job_has_transcript (vid : Nat) (language : String)
    (outcomes : Nat → StageOutcome) (tids : Nat → Nat) (db : DB)
    (hdb : db.CompletedHasTranscript) :
    ∀ s ∈ transcribe_video_run vid language outcomes tids db,
      s.CompletedHasTranscript :=
  CompletedHasTranscript_trace vid language outcomes tids
    transcribe_max_retries 0 db hdb

/-- Witness for Claim C6: in the concrete run (one failure, then success)
from the freshly uploaded store, the final state that flipped job 1 to
`completed` does hold a transcript row for job 1. -/
theorem completed_job_has_transcript_witness :
    ∃ t ∈ (transcribe_video_final 1 "en" mixedOutcomes (fun n => 100 + n) 0
        transcribe_max_retries uploadedDB).transcriptions, t.video_id = 1 := by
  have hdb : uploadedDB.CompletedHasTranscript := by
    intro v hv hst
    rw [show uploadedDB.videos = [pendingVideo] from rfl,
      List.mem_singleton] at hv
    subst hv
    exact absurd hst (by decide)
  have h := completed_job_has_transcript 1 "en" mixedOutcomes (fun n => 100 + n)
    uploadedDB hdb
    (transcribe_video_final 1 "en" mixedOutcomes (fun n => 100 + n) 0
      transcribe_max_retries uploadedDB)
    (by decide)
  exact h { pendingVideo with
      status := "completed", duration_seconds := some 125,
      error_message := some "FFmpeg error: transient" }
    (by decide) rfl

/-- Status updates do not touch the `transcriptions` table. -/
theorem transcriptCount_updateVideo (db : DB) (vid : Nat) (f : Video → Video)
    (vid' : Nat) (lang' : String) :
    (db.updateVideo vid f).transcriptCount vid' lang' =
      db.transcriptCount vid' lang' := rfl

/-- A failing execution adds no transcript row. -/
theorem transcriptCount_attemptFinal_raise (vid : Nat) (language : String)
    (newTid : Nat) (msg : String) (db : DB) (vid' : Nat) (lang' : String) :
    (attemptFinal vid language newTid (.raise msg) db).transcriptCount vid' lang' =
      db.transcriptCount vid' lang' := rfl

/-- Filtering a one-element list yields at most one element. -/
theorem filter_singleton_le {α : Type} (p : α → Bool) (x : α) :
    (List.filter p [x]).length ≤ 1 := by
  simp only [List.filter]
  split <;> simp

/-- The success commit adds at most one row to any `(video, language)`
pair. -/
theorem transcriptCount_persistSuccess_le (vid : Nat) (language : String)
    (res : WhisperResult) (newTid : Nat) (db : DB) (vid' : Nat) (lang' : String) :
    (persistSuccess vid language res newTid db).transcriptCount vid' lang' ≤
      db.transcriptCount vid' lang' + 1 := by
  unfold persistSuccess DB.transcriptCount DB.updateVideo
  simp only [List.filter_append, List.length_append]
  exact Nat.add_le_add_left (filter_singleton_le _ _) _

/-- A whole driver run adds at most one transcript row to any pair. -/
theorem transcriptCount_final_le (vid : Nat) (language : String)
    (outcomes : Nat → StageOutcome) (tids : Nat → Nat) :
    ∀ (r k : Nat) (db : DB) (vid' : Nat) (lang' : String),
      (transcribe_video_final vid language outcomes tids k r
          db).transcriptCount vid' lang' ≤ db.transcriptCount vid' lang' + 1
  | 0, k, db, vid', lang' => by
    rw [transcribe_video_final]
    cases houtcome : outcomes k with
    | ok res =>
        calc (attemptFinal vid language (tids k) (.ok res) db).transcriptCount vid' lang'
            ≤ (setProcessing vid db).transcriptCount vid' lang' + 1 :=
              transcriptCount_persistSuccess_le vid language res (tids k) _ vid' lang'
          _ = db.transcriptCount vid' lang' + 1 := rfl
    | raise msg =>
        rw [transcriptCount_attemptFinal_raise]
        omega
  | r + 1, k, db, vid', lang' => by
    rw [transcribe_video_final]
    cases houtcome : outcomes k with
    | ok res =>
        simp only [attemptSucceeds, if_true]
        calc (attemptFinal vid language (tids k) (.ok res) db).transcriptCount vid' lang'
            ≤ (setProcessing vid db).transcriptCount vid' lang' + 1 :=
              transcriptCount_persistSuccess_le vid language res (tids k) _ vid' lang'
          _ = db.transcriptCount vid' lang' + 1 := rfl
    | raise msg =>
        simp only [attemptSucceeds, Bool.false_eq_true, if_false]
        calc (transcribe_video_final vid language outcomes tids (k + 1) r
                (attemptFinal vid language (tids k) (.raise msg) db)).transcriptCount vid' lang'
            ≤ (attemptFinal vid language (tids k) (.raise msg) db).transcriptCount vid' lang' + 1 :=
              transcriptCount_final_le vid language outcomes tids r (k + 1) _ vid' lang'
          _ = db.transcriptCount vid' lang' + 1 := by
              rw [transcriptCount_attemptFinal_raise]

/-- A successful guarded creation implies the pair was absent, and appends
exactly the one new row. -/
theorem create_transcription_ok (db2 : DB) (userId vid2 : Nat) (lang2 : String)
    (tid2 : Nat) (db2' : DB)
    (hok : create_transcription_route db2 userId vid2 lang2 tid2 = .ok db2') :
    db2.transcriptCount vid2 lang2 = 0 ∧
    db2'.transcriptions = db2.transcriptions ++
      [{ id := tid2, video_id := vid2, language := lang2
         text := "Transcription processing...".data }] := by
  unfold create_transcription_route at hok
  split at hok
  · exact Except.noConfusion hok
  · split at hok
    · exact Except.noConfusion hok
    · split at hok
      · exact Except.noConfusion hok
      · split at hok
        · exact Except.noConfusion hok
        · rename_i hany
          refine ⟨?_, ?_⟩
          · have := List.any_eq_false.mp (Bool.not_eq_true _ ▸ hany)
            unfold DB.transcriptCount
            rw [List.filter_eq_nil_iff.mpr ?_]
            · rfl
            · intro t ht
              exact fun hcontra => this t ht hcontra
          · have := congrArg (fun e : Except String DB =>
              match e with | .ok d => d.transcriptions | .error _ => []) hok
            simpa using this.symm

/-- Claim C3 counterexample: the pipeline's persist step inserts
unconditionally — re-run for a job that already has a transcript in the same
language (here English), it creates a second row for the same
`(job, language)` pair. -/
theorem persist_rerun_creates_duplicate :
    ({ videos := [sampleOldVideo], transcriptions := [sampleTranscript] } : DB).transcriptCount
        1 "en" = 1 ∧
    (persistSuccess 1 "en" sampleResult 11
        { videos := [sampleOldVideo], transcriptions := [sampleTranscript] }).transcriptCount
        1 "en" = 2 := by
  decide

/-- Claim C3 (amended): at most one transcript per `(job, language)` pair
holds for the two creation paths as they are actually guarded — a single
pipeline run adds at most one row to any pair (the retry driver stops at the
first successful persist), and the transcript-creation endpoint preserves the
invariant because it rejects an existing pair with 409; the persist step
itself inserts unconditionally, so only these guards protect the
invariant. -/
theorem transcript_uniqueness_guarded (vid : Nat) (language : String)
    (outcomes : Nat → StageOutcome) (tids : Nat → Nat) (db : DB)
    (db2 : DB) (userId vid2 : Nat) (lang2 : String) (tid2 : Nat) (db2' : DB) :
    (∀ vid' lang', db.transcriptCount vid' lang' = 0 →
      (transcribe_video_final vid language outcomes tids 0 transcribe_max_retries
          db).transcriptCount vid' lang' ≤ 1) ∧
    (create_transcription_route db2 userId vid2 lang2 tid2 = .ok db2' →
      (∀ vid' lang', db2.transcriptCount vid' lang' ≤ 1) →
      ∀ vid' lang', db2'.transcriptCount vid' lang' ≤ 1) := by
  constructor
  · intro vid' lang' h0
    have := transcriptCount_final_le vid language outcomes tids
      transcribe_max_retries 0 db vid' lang'
    omega
  · intro hok hbound vid' lang'
    obtain ⟨hzero, happ⟩ := create_transcription_ok db2 userId vid2 lang2 tid2 db2' hok
    have hc : db2'.transcriptCount vid' lang' =
        db2.transcriptCount vid' lang' +
          (if vid2 = vid' ∧ lang2 = lang' then 1 else 0) := by
      show (db2'.transcriptions.filter _).length = _
      rw [happ, List.filter_append, List.length_append, List.filter_singleton]
      by_cases h : vid2 = vid' ∧ lang2 = lang'
      · simp [DB.transcriptCount, h.1, h.2]
      · rcases not_and_or.mp h with hne | hne <;> simp [DB.transcriptCount, hne, h]
    by_cases hmatch : vid2 = vid' ∧ lang2 = lang'
    · obtain ⟨h1, h2⟩ := hmatch
      subst h1
      subst h2
      rw [if_pos ⟨rfl, rfl⟩] at hc
      omega
    · rw [if_neg hmatch] at hc
      have := hbound vid' lang'
      omega

/-- Witness for Claim C3: a concrete successful run from an empty transcript
table, and a concrete guarded creation on a completed job. -/
theorem transcript_uniqueness_guarded_witness :
    (transcribe_video_final 1 "en" (fun _ => StageOutcome.ok sampleResult)
        (fun n => 100 + n) 0 transcribe_max_retries uploadedDB).transcriptCount
      1 "en" ≤ 1 ∧
    (∀ vid' lang',
      ({ videos := [sampleOldVideo]
         transcriptions := [{ id := 42, video_id := 1, language := "en"
                              text := "Transcription processing...".data }] } : DB).transcriptCount
        vid' lang' ≤ 1) := by
  have h := transcript_uniqueness_guarded 1 "en" (fun _ => .ok sampleResult)
    (fun n => 100 + n) uploadedDB
    { videos := [sampleOldVideo], transcriptions := [] } 1 1 "en" 42
    { videos := [sampleOldVideo]
      transcriptions := [{ id := 42, video_id := 1, language := "en"
                           text := "Transcription processing...".data }] }
  exact ⟨h.1 1 "en" rfl, h.2 rfl (fun _ _ => Nat.zero_le 1)⟩

/-- Replacing `'!'` and `'?'` by `'.'` and splitting on `'.'` is the same as
splitting on any of the three separators directly. -/
theorem pySplitDot_replace (text : List Char) :
    pySplitDot (pyReplaceChar '?' '.' (pyReplaceChar '!' '.' text)) =
      pySplitSeps text := by
  induction text with
  | nil => rfl
  | cons c cs ih =>
    have hstep : pyReplaceChar '?' '.' (pyReplaceChar '!' '.' (c :: cs)) =
        (if c = '!' ∨ c = '?' then '.' else c) ::
          pyReplaceChar '?' '.' (pyReplaceChar '!' '.' cs) := by
      simp only [pyReplaceChar, List.map_cons]
      congr 1
      by_cases h1 : c = '!'
      · subst h1; decide
      · by_cases h2 : c = '?'
        · subst h2; decide
        · simp [h1, h2]
    rw [hstep]
    by_cases hsep : c = '.' ∨ c = '!' ∨ c = '?'
    · have hc : (if c = '!' ∨ c = '?' then '.' else c) = '.' := by
        rcases hsep with h | h | h <;> subst h <;> simp
      rw [hc]
      simp only [pySplitDot, pySplitSeps]
      rw [if_pos trivial, if_pos hsep, ih]
    · push_neg at hsep
      have hc : (if c = '!' ∨ c = '?' then '.' else c) = c := by
        simp [hsep.2.1, hsep.2.2]
      rw [hc]
      simp only [pySplitDot, pySplitSeps]
      rw [if_neg hsep.1, if_neg (by tauto : ¬(c = '.' ∨ c = '!' ∨ c = '?')), ih]

/-- Filtering on a property of the image commutes with mapping. -/
theorem map_filter_comp {α β : Type} (f : α → β) (p : β → Bool) :
    ∀ l : List α, (l.filter (fun a => p (f a))).map f = (l.map f).filter p
  | [] => rfl
  | x :: xs => by
    by_cases h : p (f x) = true
    · simp [List.filter_cons, h, map_filter_comp f p xs]
    · simp [List.filter_cons, h, map_filter_comp f p xs]

/-- The task's sentence list equals the spec-level surviving units (with the
strict greater-than-20 threshold). -/
theorem generate_summary_sentences_eq (text : List Char) :
    generate_summary_sentences text = spec_surviving_units text := by
  unfold generate_summary_sentences spec_surviving_units
  rw [pySplitDot_replace]
  exact map_filter_comp pyStrip (fun s => decide (20 < s.length)) (pySplitSeps text)

/-- Claim C4 counterexample: on a separator-free fragment of exactly 20
characters the code discards the fragment (its length is not strictly greater
than 20): the key-point list is empty and the summary falls back to the raw
prefix, whereas under the claim's "discards fragments under 20 characters"
the fragment survives as a unit. -/
theorem summarizer_threshold_counterexample :
    sampleText20.length = 20 ∧
    generate_summary_key_points sampleText20 = [] ∧
    claimed_surviving_units sampleText20 = [sampleText20] ∧
    generate_summary_summary sampleText20 = sampleText20.take 500 := by
  decide

/-- Claim C4 (amended): the Summarizer splits on `'.'`/`'!'`/`'?'`, discards
stripped fragments of 20 characters or fewer (keeps only strictly longer than
20), joins the first 5 survivors with `". "` plus a trailing `'.'` as the
summary, falls back to the first 500 raw characters when no unit survives,
and returns the first 10 survivors (all, if fewer) as key points. -/
theorem generate_summary_matches_spec (text : List Char) :
    generate_summary_summary text = spec_summary text ∧
    generate_summary_key_points text = spec_key_points text := by
  constructor
  · unfold generate_summary_summary spec_summary
    rw [generate_summary_sentences_eq]
    by_cases h : spec_surviving_units text = []
    · rw [if_pos h, h]
      rfl
    · rw [if_neg h]
      have hne : (spec_surviving_units text).isEmpty = false := by
        simp [List.isEmpty_iff, h]
      simp [hne]
  · unfold generate_summary_key_points spec_key_points
    rw [generate_summary_sentences_eq]
    by_cases h : 10 < (spec_surviving_units text).length
    · rw [if_pos h]
    · rw [if_neg h]
      exact (List.take_of_length_le (Nat.le_of_not_lt h)).symm
